import Mathlib

/-!
Verification of the rt-counter paired-end readthrough counter.

This file gives a shallow embedding of `src/_rtcounter/_counting.py`
(the `_calc_rt` classification pipeline, its counters and the
`writeBAMwithOpts` output helper) together with a spec-modelled
multimapping-mode dispatch, and proves or refutes the frozen claims
about that code.

Modelling conventions:
* Genomic positions are natural numbers; `Iv` mirrors HTSeq's
  `GenomicInterval` with `stop` standing for the Python attribute `end`
  (a Lean keyword).
* HTSeq's `GenomicArrayOfSets` step queries are embedded position-wise:
  a "step" of the array over a query span is a maximal run of positions
  sharing the same feature-name set, so "some step carries more than one
  name" is "some position carries more than one name", and the summed
  lengths of the singleton-`{name}` steps equal the number of positions
  whose name set is exactly `{name}`.
* Python loops whose bodies can raise are embedded with structurally
  recursive `foldME`/`mapME` over the `Except` monad; a raised exception
  aborts the whole run, exactly as an uncaught Python exception would.
-/

namespace RTC

/-- Strand of a genomic interval: `+`, `-` or `.` (unstranded). -/
inductive Strand where
  | plus
  | minus
  | dot
deriving DecidableEq, Repr

/-- HTSeq `GenomicInterval`: chromosome, start (inclusive), `end`
(exclusive, called `stop` here because `end` is a Lean keyword), strand. -/
structure Iv where
  chrom : String
  start : Nat
  stop : Nat
  strand : Strand
deriving DecidableEq, Repr

/-- `GenomicInterval.length = end - start`. -/
def Iv.length (iv : Iv) : Nat := iv.stop - iv.start

/-- HTSeq `GenomicInterval.extend_to_include`: widen `a` to cover `b`
(same chromosome assumed, as in every call site of the source). -/
def Iv.extend_to_include (a b : Iv) : Iv :=
  { a with start := min a.start b.start, stop := max a.stop b.stop }

/-- CIGAR operation codes as used by the source's character sets. -/
inductive OpType where
  | M
  | EqOp
  | X
  | N
  | D
  | I
  | SoftClip
  | H
  | P
deriving DecidableEq, Repr

/-- `MOPS = {"M","=","X"}`: operations interpreted as matches. -/
def MOPS : OpType → Bool
  | .M | .EqOp | .X => true
  | _ => false

/-- `SOPS = {"N"}`: operations interpreted as skips. -/
def SOPS : OpType → Bool
  | .N => true
  | _ => false

/-- `ROPS = {"M","=","X","N","D"}`: reference-consuming operations. -/
def ROPS : OpType → Bool
  | .M | .EqOp | .X | .N | .D => true
  | _ => false

/-- One CIGAR operation of a segment, with its reference span `ref_iv`. -/
structure CigarOp where
  type : OpType
  ref_iv : Iv
deriving DecidableEq, Repr

/-- One aligned segment (HTSeq `SAM_Alignment`): its mapped reference
interval `iv`, its CIGAR, and the QC flags read by the source. -/
structure Segment where
  iv : Iv
  cigar : List CigarOp
  aligned : Bool
  failed_platform_qc : Bool
  pcr_or_optical_duplicate : Bool
  proper_pair : Bool
deriving DecidableEq, Repr

/-- One feature record from the GTF reader: its `type` string (only
`"exon"` records participate), its name and its interval. -/
structure Feature where
  ftype : String
  name : String
  iv : Iv
deriving DecidableEq, Repr

/-- The exon records of the feature file (`if feature.type=="exon"`). -/
def exonList (ff : List Feature) : List Feature :=
  ff.filter (fun f => decide (f.ftype = "exon"))

/-- The feature names stored at position `p` of chromosome `chrom` in the
`exons` `GenomicArrayOfSets` (deduplicated, in feature-file order). -/
def namesAt (ff : List Feature) (chrom : String) (p : Nat) : List String :=
  (((exonList ff).filter
      (fun f => decide (f.iv.chrom = chrom ∧ f.iv.start ≤ p ∧ p < f.iv.stop))).map
    (fun f => f.name)).dedup

/-- All names occurring in the exon index, deduplicated. -/
def allExonNames (ff : List Feature) : List String :=
  ((exonList ff).map (fun f => f.name)).dedup

/-- The reference positions covered by a CIGAR operation's `ref_iv`. -/
def opPositions (op : CigarOp) : List Nat :=
  List.range' op.ref_iv.start op.ref_iv.length

/-- `isMultiName` for one segment: some step (position) of some match
operation's queried span carries more than one feature name. -/
def segMultiName (ff : List Feature) (seg : Segment) : Bool :=
  seg.cigar.any fun op =>
    MOPS op.type &&
      (opPositions op).any fun p => decide (1 < (namesAt ff op.ref_iv.chrom p).length)

/-- `cntNames[name]` for one segment: over match operations, the summed
lengths of the steps whose name set is exactly `{name}` (position-wise:
the number of covered positions whose name set is `[name]`). -/
def cntNamesSeg (ff : List Feature) (seg : Segment) (name : String) : Nat :=
  ((seg.cigar.filter (fun op => MOPS op.type)).map
    (fun op =>
      ((opPositions op).filter
        (fun p => decide (namesAt ff op.ref_iv.chrom p = [name]))).length)).sum

/-- The keys of one segment's `cntNames` counter. -/
def namesBaseSeg (ff : List Feature) (seg : Segment) : List String :=
  (allExonNames ff).filter (fun n => decide (0 < cntNamesSeg ff seg n))

/-- `namesBase`: the union of both segments' counter keys. -/
def namesBasePair (ff : List Feature) (s1 s2 : Segment) : List String :=
  (namesBaseSeg ff s1 ++ namesBaseSeg ff s2).dedup

/-- The `ivBounds` dictionary: fold over the feature records, extending a
per-name bounding interval over every `"exon"` record whose strand is not
`"."`. `none` is a missing key. -/
def buildIvBounds (ff : List Feature) : String → Option Iv :=
  ff.foldl
    (fun m f =>
      if f.ftype = "exon" ∧ f.iv.strand ≠ Strand.dot then
        fun n =>
          if n = f.name then
            match m f.name with
            | none => some f.iv
            | some iv0 => some (iv0.extend_to_include f.iv)
          else m n
      else m)
    (fun _ => none)

/-- The per-segment "check" criteria of the source (negated): unaligned,
platform-QC-failed, duplicate, or not properly paired. -/
def segFailsChecks (seg : Segment) : Bool :=
  (!seg.aligned) || seg.failed_platform_qc ||
    seg.pcr_or_optical_duplicate || (!seg.proper_pair)

/-- The upstream-match test for one segment against the bounding interval. -/
def segIsUp (sBase : Strand) (ivBase : Iv) (seg : Segment) : Bool :=
  match sBase with
  | .plus => decide (seg.iv.start < ivBase.start)
  | .minus => decide (ivBase.stop < seg.iv.stop)
  | .dot => false

/-- Whether a segment's mapped interval spans downstream of the bounding
interval's 3' edge (the negation of the source's `continue` guard).
`ivBounds` intervals never carry strand `"."`, so the `.dot` arm is
unreachable in classification. -/
def segSpansDown (sBase : Strand) (ivBase : Iv) (seg : Segment) : Bool :=
  match sBase with
  | .plus => decide (ivBase.stop < seg.iv.stop)
  | .minus => decide (seg.iv.start < ivBase.start)
  | .dot => false

/-- The inner CIGAR loop of the readthrough measurement: walk the
(already direction-ordered) operations carrying the growing `ivRT` and
the `isReading` flag; yield `some length` at the stopping skip (with the
upstream bound of `ivRT` corrected to the 3' edge first), and `none` when
the segment ends without the stop branch ever executing. -/
def rtWalk (sBase : Strand) (ivBase : Iv) : List CigarOp → Iv → Bool → Option Nat
  | [], _, _ => none
  | op :: rest, ivRT, isReading =>
    if ROPS op.type then
      let past : Bool :=
        match sBase with
        | .plus => decide (ivBase.stop < op.ref_iv.stop)
        | .minus => decide (op.ref_iv.start < ivBase.start)
        | .dot => false
      let isReading' := isReading || past
      let ivRT' := if past && !(SOPS op.type) then ivRT.extend_to_include op.ref_iv else ivRT
      if isReading' && SOPS op.type then
        some (match sBase with
          | .plus => ({ ivRT' with start := ivBase.stop } : Iv).length
          | .minus => ({ ivRT' with stop := ivBase.start } : Iv).length
          | .dot => ivRT'.length)
      else rtWalk sBase ivBase rest ivRT' isReading'
    else rtWalk sBase ivBase rest ivRT isReading

/-- The readthrough measurement of one downstream-spanning segment:
initialise `ivRT` to the zero-length interval at the 3' edge, orient the
CIGAR in transcription direction, and run the walk. -/
def segRT (sBase : Strand) (ivBase : Iv) (seg : Segment) : Option Nat :=
  let posBoundOut :=
    match sBase with
    | .plus => ivBase.stop
    | .minus => ivBase.start
    | .dot => ivBase.stop
  let itCIGAR :=
    match sBase with
    | .minus => seg.cigar.reverse
    | _ => seg.cigar
  rtWalk sBase ivBase itCIGAR ⟨ivBase.chrom, posBoundOut, posBoundOut, Strand.dot⟩ false

/-- `listLenRT`: the initial `[0]` plus, for each segment spanning
downstream, the length appended by its walk (nothing when the walk ends
the segment without reaching a skip). -/
def listLenRT (sBase : Strand) (ivBase : Iv) (s1 s2 : Segment) : List Nat :=
  0 :: ([s1, s2].filterMap fun seg =>
    if segSpansDown sBase ivBase seg then segRT sBase ivBase seg else none)

/-- `lenRT = max(listLenRT)`. -/
def lenRTPair (sBase : Strand) (ivBase : Iv) (s1 s2 : Segment) : Nat :=
  (listLenRT sBase ivBase s1 s2).foldl max 0

/-- The eight rejection codes of `ERROR_CODES`. -/
inductive ErrCode where
  | MULTI_MAP
  | ORPHAN
  | FAIL_CHECKS
  | NO_NAME
  | MULTI_NAME
  | INSUFF_MATCH
  | UPSTREAM_MATCH
  | DOWNSTREAM_MATCH
deriving DecidableEq, Repr

/-- The numeric values of the `ERROR_CODES` dictionary. -/
def ERROR_CODES : ErrCode → Nat
  | .MULTI_MAP => 1
  | .ORPHAN => 2
  | .FAIL_CHECKS => 3
  | .NO_NAME => 4
  | .MULTI_NAME => 5
  | .INSUFF_MATCH => 6
  | .UPSTREAM_MATCH => 7
  | .DOWNSTREAM_MATCH => 8

/-- Per-placement classification outcome: a rejection, or an accept
carrying the feature name, `lenBase` and `lenRT` (`lenRT > 0` marks the
readthrough tier). -/
inductive Outcome where
  | reject (code : ErrCode)
  | accept (nameBase : String) (lenBase : Nat) (lenRT : Nat)
deriving DecidableEq, Repr

/-- The per-pair decision chain of `_calc_rt` (everything between the
orphan check and the counter updates). A `.error` is an uncaught Python
exception: the only one reachable here is the `KeyError` raised by
`ivBounds[nameBase]` when the candidate name has no bounding interval. -/
def classifyPair (ff : List Feature) (fAnchor : Nat)
    (pair : Option Segment × Option Segment) : Except String Outcome :=
  match pair with
  | (some s1, some s2) =>
    if segFailsChecks s1 || segFailsChecks s2 then
      .ok (.reject .FAIL_CHECKS)
    else
      let isMultiName := segMultiName ff s1 || segMultiName ff s2
      let namesBase := namesBasePair ff s1 s2
      if isMultiName || decide (1 < namesBase.length) then
        .ok (.reject .MULTI_NAME)
      else
        match namesBase with
        | [] => .ok (.reject .NO_NAME)
        | nameBase :: _ =>
          let lenBase := max (cntNamesSeg ff s1 nameBase) (cntNamesSeg ff s2 nameBase)
          if lenBase < fAnchor then
            .ok (.reject .INSUFF_MATCH)
          else
            match buildIvBounds ff nameBase with
            | none => .error ("KeyError: " ++ nameBase)
            | some ivBase =>
              let sBase := ivBase.strand
              if segIsUp sBase ivBase s1 || segIsUp sBase ivBase s2 then
                .ok (.reject .UPSTREAM_MATCH)
              else
                let isDown := segSpansDown sBase ivBase s1 || segSpansDown sBase ivBase s2
                let lenRT := lenRTPair sBase ivBase s1 s2
                if isDown && decide (lenRT = 0) then
                  .ok (.reject .DOWNSTREAM_MATCH)
                else
                  .ok (.accept nameBase lenBase lenRT)
  | _ => .ok (.reject .ORPHAN)

/-! ## Python loops over the `Except` monad -/

/-- A Python `for` loop threading an accumulator, whose body can raise. -/
def foldME {σ α ε : Type} (f : σ → α → Except ε σ) : σ → List α → Except ε σ
  | st, [] => .ok st
  | st, a :: l =>
    match f st a with
    | .error e => .error e
    | .ok st' => foldME f st' l

/-- A Python `for` loop collecting results, whose body can raise. -/
def mapME {α β ε : Type} (f : α → Except ε β) : List α → Except ε (List β)
  | [] => .ok []
  | a :: l =>
    match f a with
    | .error e => .error e
    | .ok b =>
      match mapME f l with
      | .error e => .error e
      | .ok bs => .ok (b :: bs)

/-! ## The output writer -/

/-- `aln.get_sam_line()`: raises `AttributeError` when the element of the
pair is `None` (an orphan's missing mate). The SAM text itself is
excluded I/O; only its existence matters to the claims, so an aligned
segment renders to the empty line. -/
def get_sam_line : Option Segment → Except String String
  | none => .error "AttributeError: NoneType object has no attribute get_sam_line"
  | some _ => .ok ""

/-- Append the optional fields `TAG:TYPE:VALUE` to a SAM line. -/
def addOptFields (line : String) (opts : List (String × String × String)) : String :=
  opts.foldl (fun l o => l ++ "\x09" ++ o.1 ++ ":" ++ o.2.1 ++ ":" ++ o.2.2) line

/-- `writeBAMwithOpts`: do nothing without a writer, otherwise render and
write each alignment of the pair with the added optional fields,
returning the written lines. -/
def writeBAMwithOpts (writer : Bool) (pair : List (Option Segment))
    (opts : List (String × String × String)) : Except String (List String) :=
  if writer then
    mapME (fun aln =>
      match get_sam_line aln with
      | .error e => .error e
      | .ok line => .ok (addOptFields line opts)) pair
  else .ok []

/-! ## Counters and the per-bundle loop -/

/-- The `cntStats` counter fields touched by `_calc_rt`. -/
structure Stats where
  totPairs : Nat
  multiMap : Nat
  orphan : Nat
  failChecks : Nat
  noName : Nat
  multiName : Nat
  insuffMatch : Nat
  upstreamMatch : Nat
  downstreamMatch : Nat
  totBase : Nat
  totRT : Nat
deriving DecidableEq, Repr

/-- All-zero statistics. -/
def Stats.init : Stats := ⟨0, 0, 0, 0, 0, 0, 0, 0, 0, 0, 0⟩

/-- Bump the statistic matching a rejection code. -/
def bumpStat (code : ErrCode) (s : Stats) : Stats :=
  match code with
  | .MULTI_MAP => { s with multiMap := s.multiMap + 1 }
  | .ORPHAN => { s with orphan := s.orphan + 1 }
  | .FAIL_CHECKS => { s with failChecks := s.failChecks + 1 }
  | .NO_NAME => { s with noName := s.noName + 1 }
  | .MULTI_NAME => { s with multiName := s.multiName + 1 }
  | .INSUFF_MATCH => { s with insuffMatch := s.insuffMatch + 1 }
  | .UPSTREAM_MATCH => { s with upstreamMatch := s.upstreamMatch + 1 }
  | .DOWNSTREAM_MATCH => { s with downstreamMatch := s.downstreamMatch + 1 }

/-- The mutable aggregation state of `_calc_rt`: statistics, the
`cntBase` and `cntRT` counters, the tail-length lists, and the insertion
order of `cntBase`'s keys (used to lay out the final table). -/
structure CountState where
  stats : Stats
  cntBase : String → Nat
  cntRT : String → Nat
  dictTails : String → List Nat
  baseKeys : List String

/-- The empty aggregation state. -/
def CountState.init : CountState :=
  ⟨Stats.init, fun _ => 0, fun _ => 0, fun _ => [], []⟩

/-- The optional fields written alongside a rejection. -/
def failOpts (code : ErrCode) : List (String × String × String) :=
  [("xx", "i", toString (ERROR_CODES code))]

/-- The optional fields written alongside an accept (`tl` only for a
readthrough). -/
def acceptOpts (nameBase : String) (lenBase lenRT : Nat) :
    List (String × String × String) :=
  [("fe", "Z", nameBase), ("ba", "i", toString lenBase)] ++
    (if 0 < lenRT then [("tl", "i", toString lenRT)] else [])

/-- State update for a rejection: bump the matching statistic. -/
def rejectState (code : ErrCode) (st : CountState) : CountState :=
  { st with stats := bumpStat code st.stats }

/-- State update for an accept: count the base hit always, and the
readthrough hit with its appended tail when `lenRT > 0`. -/
def acceptState (nameBase : String) (lenRT : Nat) (st : CountState) : CountState :=
  { stats :=
      { st.stats with
        totBase := st.stats.totBase + 1
        totRT := if 0 < lenRT then st.stats.totRT + 1 else st.stats.totRT }
    cntBase := fun n => if n = nameBase then st.cntBase n + 1 else st.cntBase n
    cntRT := fun n =>
      if 0 < lenRT ∧ n = nameBase then st.cntRT n + 1 else st.cntRT n
    dictTails := fun n =>
      if 0 < lenRT ∧ n = nameBase then st.dictTails n ++ [lenRT] else st.dictTails n
    baseKeys :=
      if st.baseKeys.contains nameBase then st.baseKeys else st.baseKeys ++ [nameBase] }

/-- Fold one classified pair into the state: bump the matching rejection
counter and write the pair to the fails writer, or count the accept and
write the pair to the hits writer. Counter updates precede the write, as
in the source; a raised write error aborts the run. -/
def processPair (ff : List Feature) (fAnchor : Nat) (wHits wFails : Bool)
    (st : CountState) (pair : Option Segment × Option Segment) :
    Except String CountState :=
  match classifyPair ff fAnchor pair with
  | .error e => .error e
  | .ok (.reject code) =>
    match writeBAMwithOpts wFails [pair.1, pair.2] (failOpts code) with
    | .error e => .error e
    | .ok _ => .ok (rejectState code st)
  | .ok (.accept nameBase lenBase lenRT) =>
    match writeBAMwithOpts wHits [pair.1, pair.2] (acceptOpts nameBase lenBase lenRT) with
    | .error e => .error e
    | .ok _ => .ok (acceptState nameBase lenRT st)

/-- Process one bundle: count the template, short-circuit a multimapper
(one `MULTI_MAP` bump plus one fails write per placement), otherwise fold
the placements through `processPair`. -/
def processBundle (ff : List Feature) (fAnchor : Nat) (wHits wFails : Bool)
    (st : CountState) (bundle : List (Option Segment × Option Segment)) :
    Except String CountState :=
  let st := { st with stats := { st.stats with totPairs := st.stats.totPairs + 1 } }
  if 1 < bundle.length then
    let st := { st with stats := { st.stats with multiMap := st.stats.multiMap + 1 } }
    match mapME (fun pair =>
        writeBAMwithOpts wFails [pair.1, pair.2] (failOpts ErrCode.MULTI_MAP)) bundle with
    | .error e => .error e
    | .ok _ => .ok st
  else
    foldME (processPair ff fAnchor wHits wFails) st bundle

/-- The whole counting loop over a batch of bundles, from empty state. -/
def processBundles (ff : List Feature) (fAnchor : Nat) (wHits wFails : Bool)
    (bundles : List (List (Option Segment × Option Segment))) :
    Except String CountState :=
  foldME (processBundle ff fAnchor wHits wFails) CountState.init bundles

/-- The final table: one row `(id, count_base, count_readthrough)` per
`cntBase` key in insertion order; the source's zero-filling of `cntRT`
is the function default `0`. -/
def finalTable (st : CountState) : List (String × Nat × Nat) :=
  st.baseKeys.map (fun k => (k, st.cntBase k, st.cntRT k))

/-! ## Spec-modelled multimapping-mode dispatch -/

/-- Modelled from the spec: the multimapping counting modes. The mode
dispatch (`COUNTMODES`, `MODE_CNTNON` and the `countMultimappers`
parameter that `src/rt_counter.py` passes to `_calc_rt`) is absent from
`src/_rtcounter/_counting.py`; the spec's list of modes is
`count_all | count_none | count_fractional`. -/
def COUNTMODES : List String := ["count_all", "count_none", "count_fractional"]

/-- Modelled from the spec: the default mode constant referenced by
`src/rt_counter.py` as `MODE_CNTNON` (reject multimappers). -/
def MODE_CNTNON : String := "count_none"

/-- Modelled from the spec: per-template multimapping policy, §4.2 step 1.
With more than one placement: `count_none` rejects every placement with
`MULTI_MAP` at weight 0; `count_all` classifies every placement
independently at weight 1; `count_fractional` classifies every placement
independently at weight `1 / number_of_placements`; an unknown mode is a
fatal configuration error. A uniquely placed template is classified at
weight 1 regardless of mode. -/
def classifyBundleWithMode (ff : List Feature) (fAnchor : Nat) (mode : String)
    (bundle : List (Option Segment × Option Segment)) :
    Except String (List (Outcome × ℚ)) :=
  if 1 < bundle.length then
    if mode = "count_none" then
      .ok (bundle.map fun _ => (Outcome.reject .MULTI_MAP, (0 : ℚ)))
    else if mode = "count_all" then
      mapME (fun pair =>
        match classifyPair ff fAnchor pair with
        | .error e => .error e
        | .ok o => .ok (o, (1 : ℚ))) bundle
    else if mode = "count_fractional" then
      mapME (fun pair =>
        match classifyPair ff fAnchor pair with
        | .error e => .error e
        | .ok o => .ok (o, (1 : ℚ) / bundle.length)) bundle
    else
      .error ("Unknown multimapping mode: " ++ mode)
  else
    mapME (fun pair =>
      match classifyPair ff fAnchor pair with
      | .error e => .error e
      | .ok o => .ok (o, (1 : ℚ))) bundle

/-! ## Concrete fixtures for witnesses and counterexamples -/

/-- A clean segment template: aligned, properly paired, no QC failures. -/
def mkSeg (iv : Iv) (cigar : List CigarOp) : Segment :=
  ⟨iv, cigar, true, false, false, true⟩

/-- One feature `g`: a single exon `[100,200)` on chromosome 1, strand +. -/
def ffG : List Feature := [⟨"exon", "g", ⟨"1", 100, 200, Strand.plus⟩⟩]

/-- Segment matching `[170,230)` in one `M` run: 30 bases past the 3'
edge 200, CIGAR ending without any skip. -/
def segDown30 : Segment :=
  mkSeg ⟨"1", 170, 230, Strand.plus⟩ [⟨.M, ⟨"1", 170, 230, Strand.plus⟩⟩]

/-- Segment matching `[150,200)`, entirely inside the exon. -/
def segIn : Segment :=
  mkSeg ⟨"1", 150, 200, Strand.plus⟩ [⟨.M, ⟨"1", 150, 200, Strand.plus⟩⟩]

/-- Spliced segment: `M` to `[150,205)` (5 bases past the edge), skip
`N` over `[205,400)`, then `M` over `[400,420)`. -/
def segTail5 : Segment :=
  mkSeg ⟨"1", 150, 420, Strand.plus⟩
    [⟨.M, ⟨"1", 150, 205, Strand.plus⟩⟩,
     ⟨.N, ⟨"1", 205, 400, Strand.plus⟩⟩,
     ⟨.M, ⟨"1", 400, 420, Strand.plus⟩⟩]

/-- Segment whose first downstream operation is itself the skip: `M` to
the edge `[150,200)`, `N` over `[200,400)`, `M` over `[400,420)`. -/
def segTail0 : Segment :=
  mkSeg ⟨"1", 150, 420, Strand.plus⟩
    [⟨.M, ⟨"1", 150, 200, Strand.plus⟩⟩,
     ⟨.N, ⟨"1", 200, 400, Strand.plus⟩⟩,
     ⟨.M, ⟨"1", 400, 420, Strand.plus⟩⟩]

/-- Feature `g` again, now with two exons `[100,140)` and `[160,200)`. -/
def ffGap : List Feature :=
  [⟨"exon", "g", ⟨"1", 100, 140, Strand.plus⟩⟩,
   ⟨"exon", "g", ⟨"1", 160, 200, Strand.plus⟩⟩]

/-- Segment matching the first exon exactly. -/
def segExonA : Segment :=
  mkSeg ⟨"1", 100, 140, Strand.plus⟩ [⟨.M, ⟨"1", 100, 140, Strand.plus⟩⟩]

/-- Segment matching `[145,155)`, inside the intron of `ffGap`'s
feature: it overlaps no exon, hence no feature name. -/
def segIntron : Segment :=
  mkSeg ⟨"1", 145, 155, Strand.plus⟩ [⟨.M, ⟨"1", 145, 155, Strand.plus⟩⟩]

/-- One feature `u` whose only exon is unstranded (strand `"."`): in the
exon index but owning no `ivBounds` entry. -/
def ffU : List Feature := [⟨"exon", "u", ⟨"1", 100, 200, Strand.dot⟩⟩]

/-- Two features on one chromosome: `g` over `[100,200)` and `h` over
`[300,400)`, both stranded `+`. -/
def ffGH : List Feature :=
  [⟨"exon", "g", ⟨"1", 100, 200, Strand.plus⟩⟩,
   ⟨"exon", "h", ⟨"1", 300, 400, Strand.plus⟩⟩]

/-- Segment matching `[300,350)`, inside feature `h` of `ffGH`. -/
def segH : Segment :=
  mkSeg ⟨"1", 300, 350, Strand.plus⟩ [⟨.M, ⟨"1", 300, 350, Strand.plus⟩⟩]

/-! ## Derived definitions used by the stated invariants -/

/-- The sum of the eight named rejection counters plus the base-hit
total. -/
def statSum (s : Stats) : Nat :=
  s.multiMap + s.orphan + s.failChecks + s.noName + s.multiName +
    s.insuffMatch + s.upstreamMatch + s.downstreamMatch + s.totBase

/-- Tier containment invariant: per feature, the readthrough count never
exceeds the base count, and every feature with a positive base count is
a key of the final table. -/
def tierInv (st : CountState) : Prop :=
  (∀ f, st.cntRT f ≤ st.cntBase f) ∧ (∀ f, 0 < st.cntBase f → f ∈ st.baseKeys)

/-- Tail-list invariant: per feature, the tail-length list has exactly
`cntRT` entries and every entry is strictly positive. -/
def tailsInv (st : CountState) : Prop :=
  ∀ f, (st.dictTails f).length = st.cntRT f ∧ ∀ x ∈ st.dictTails f, 0 < x

/-- A demonstration batch: one readthrough accept, one orphan, one
multimapper. -/
def demoBundles : List (List (Option Segment × Option Segment)) :=
  [[(some segTail5, some segIn)],
   [(some segIn, none)],
   [(some segIn, some segIn), (some segIn, some segIn)]]

/-- The state after running the demonstration batch. -/
def demoFinal : CountState :=
  match processBundles ffG 10 false false demoBundles with
  | .ok st => st
  | .error _ => CountState.init

/-- The state after one bundle whose template is a readthrough accept
with tail length 5. -/
def demoRTFinal : CountState :=
  match processBundles ffG 10 false false [[(some segTail5, some segIn)]] with
  | .ok st => st
  | .error _ => CountState.init

/-! ## Claim theorems -/

/-- C1: the claim says the downstream tail walk also yields the
accumulated length when the segment ends without a skip, so that a
segment whose CIGAR downstream of the 3' edge is `30M` followed by the
end of the segment has tail length 30 and the template is accepted as
`READTHROUGH`. The code appends a tail length only in the skip branch of
the walk: on this very input (`segDown30`, 30 matched bases past edge
200, no skip) the walk yields nothing, `lenRT` stays 0, and the template
is rejected with `DOWNSTREAM_MATCH`, contradicting the claim and the
function's own docstring (criterion g). -/
theorem c1_tail_walk_drops_segment_end :
    segSpansDown Strand.plus ⟨"1", 100, 200, Strand.plus⟩ segDown30 = true ∧
    segRT Strand.plus ⟨"1", 100, 200, Strand.plus⟩ segDown30 = none ∧
    classifyPair ffG 10 (some segDown30, some segIn) =
      .ok (.reject .DOWNSTREAM_MATCH) :=
  ⟨rfl, rfl, rfl⟩

/-- C6: rejections are claimed to be data-level outcomes that never
raise. The `ORPHAN` classification itself is a data-level outcome and
completes without error when no fails writer is configured, but with a
fails writer configured the very same orphan pair makes
`writeBAMwithOpts` call `get_sam_line` on the missing mate (`None`),
raising `AttributeError` — the run aborts instead of counting the
rejection. -/
theorem c6_orphan_write_raises :
    classifyPair ffG 10 (some segIn, none) = .ok (.reject .ORPHAN) ∧
    processPair ffG 10 false false CountState.init (some segIn, none) =
      .ok { CountState.init with stats := { Stats.init with orphan := 1 } } ∧
    processPair ffG 10 false true CountState.init (some segIn, none) =
      .error "AttributeError: NoneType object has no attribute get_sam_line" :=
  ⟨rfl, rfl, rfl⟩

/-- C2: for a template that passes steps 1-6 and has a segment extending
downstream of the 3' edge, a measured maximal tail of 0 is rejected with
`DOWNSTREAM_MATCH`, and a positive measured maximal tail is accepted
with that tail length (`lenRT > 0` is the `READTHROUGH` tier): a skip
stops the walk but the bases measured before it are kept. -/
theorem c2_downstream_tail_dichotomy
    (ff : List Feature) (fAnchor : Nat) (s1 s2 : Segment)
    (nameBase : String) (ivBase : Iv)
    (hchk : (segFailsChecks s1 || segFailsChecks s2) = false)
    (hmulti : (segMultiName ff s1 || segMultiName ff s2) = false)
    (hnames : namesBasePair ff s1 s2 = [nameBase])
    (hanchor : ¬ max (cntNamesSeg ff s1 nameBase) (cntNamesSeg ff s2 nameBase) < fAnchor)
    (hbounds : buildIvBounds ff nameBase = some ivBase)
    (hup : (segIsUp ivBase.strand ivBase s1 || segIsUp ivBase.strand ivBase s2) = false)
    (hdown : (segSpansDown ivBase.strand ivBase s1 ||
      segSpansDown ivBase.strand ivBase s2) = true) :
    (lenRTPair ivBase.strand ivBase s1 s2 = 0 →
      classifyPair ff fAnchor (some s1, some s2) = .ok (.reject .DOWNSTREAM_MATCH)) ∧
    (0 < lenRTPair ivBase.strand ivBase s1 s2 →
      classifyPair ff fAnchor (some s1, some s2) =
        .ok (.accept nameBase
          (max (cntNamesSeg ff s1 nameBase) (cntNamesSeg ff s2 nameBase))
          (lenRTPair ivBase.strand ivBase s1 s2))) := by
  constructor
  · intro h
    simp [classifyPair, hchk, hmulti, hnames, hanchor, hbounds, hup, hdown, h]
  · intro h
    have h0 : ¬ lenRTPair ivBase.strand ivBase s1 s2 = 0 := Nat.pos_iff_ne_zero.mp h
    simp [classifyPair, hchk, hmulti, hnames, hanchor, hbounds, hup, hdown, h0]

/-- C2 witness: the spec's own instance — CIGAR downstream of edge 200
is `5M,200N`; the tail measured is 5 and the template is accepted with
tail length 5 (alongside, the companion fixture whose first downstream
operation is the skip itself measures 0 and is rejected). -/
theorem c2_downstream_tail_dichotomy_witness :
    classifyPair ffG 10 (some segTail5, some segIn) = .ok (.accept "g" 50 5) ∧
    classifyPair ffG 10 (some segTail0, some segIn) =
      .ok (.reject .DOWNSTREAM_MATCH) := by
  constructor
  · exact (c2_downstream_tail_dichotomy ffG 10 segTail5 segIn "g"
      ⟨"1", 100, 200, Strand.plus⟩ rfl rfl rfl (by decide) rfl rfl rfl).2 (by decide)
  · exact (c2_downstream_tail_dichotomy ffG 10 segTail0 segIn "g"
      ⟨"1", 100, 200, Strand.plus⟩ rfl rfl rfl (by decide) rfl rfl rfl).1 (by decide)

/-- C3: for a template reaching step 5 with surviving candidate
`nameBase`, the template is rejected with `INSUFF_MATCH` exactly when
`base_match_length` — the maximum over the two segments of the bases of
match operations overlapping the candidate — is below `fAnchor`. -/
theorem c3_anchor_boundary
    (ff : List Feature) (fAnchor : Nat) (s1 s2 : Segment) (nameBase : String)
    (hchk : (segFailsChecks s1 || segFailsChecks s2) = false)
    (hmulti : (segMultiName ff s1 || segMultiName ff s2) = false)
    (hnames : namesBasePair ff s1 s2 = [nameBase]) :
    (classifyPair ff fAnchor (some s1, some s2) = .ok (.reject .INSUFF_MATCH) ↔
      max (cntNamesSeg ff s1 nameBase) (cntNamesSeg ff s2 nameBase) < fAnchor) := by
  by_cases h : max (cntNamesSeg ff s1 nameBase) (cntNamesSeg ff s2 nameBase) < fAnchor
  · simp [classifyPair, hchk, hmulti, hnames, h]
  · simp only [classifyPair, hchk, hmulti, hnames]
    simp [h]
    split
    · simp
    · split_ifs <;> simp

/-- C3 witness: `segIn`'s 50-base overlap passes at `fAnchor = 50`
(exactly the threshold) and is rejected with `INSUFF_MATCH` at
`fAnchor = 51` (a 50-base overlap is `fAnchor - 1` there). -/
theorem c3_anchor_boundary_witness :
    classifyPair ffG 51 (some segIn, some segIn) = .ok (.reject .INSUFF_MATCH) ∧
    ¬ classifyPair ffG 50 (some segIn, some segIn) = .ok (.reject .INSUFF_MATCH) := by
  constructor
  · exact (c3_anchor_boundary ffG 51 segIn segIn "g" rfl rfl rfl).mpr (by decide)
  · intro hcontra
    exact absurd ((c3_anchor_boundary ffG 50 segIn segIn "g" rfl rfl rfl).mp hcontra)
      (by decide)

/-! ## Helper lemmas -/

/-- Every name the pair overlaps is a name of the exon index. -/
theorem mem_allExonNames_of_mem_namesBasePair {ff : List Feature}
    {s1 s2 : Segment} {n : String} (h : n ∈ namesBasePair ff s1 s2) :
    n ∈ allExonNames ff := by
  rw [namesBasePair, List.mem_dedup, List.mem_append] at h
  rw [namesBaseSeg, namesBaseSeg] at h
  rcases h with h | h <;> exact (List.mem_filter.mp h).1

/-- A successful `mapME` relates input and output pointwise. -/
theorem mapME_ok_forall2 {α β ε : Type} {f : α → Except ε β} :
    ∀ {l : List α} {res : List β}, mapME f l = .ok res →
      List.Forall₂ (fun a b => f a = .ok b) l res := by
  intro l
  induction l with
  | nil =>
    intro res h
    unfold mapME at h
    cases h
    exact List.Forall₂.nil
  | cons a l ih =>
    intro res h
    unfold mapME at h
    rcases hfa : f a with e | b
    · rw [hfa] at h; cases h
    · rw [hfa] at h
      rcases hrest : mapME f l with e | bs
      · rw [hrest] at h; cases h
      · rw [hrest] at h
        cases h
        exact List.Forall₂.cons hfa (ih hrest)

/-- A property preserved by each successful step of `foldME` holds of a
successful fold's result. -/
theorem foldME_preserve {σ α ε : Type} (P : σ → Prop) {f : σ → α → Except ε σ}
    (hf : ∀ s a s', P s → f s a = .ok s' → P s') :
    ∀ {l : List α} {s s' : σ}, P s → foldME f s l = .ok s' → P s' := by
  intro l
  induction l with
  | nil =>
    intro s s' hP h
    unfold foldME at h
    cases h
    exact hP
  | cons a l ih =>
    intro s s' hP h
    unfold foldME at h
    rcases ha : f s a with e | s1
    · rw [ha] at h; cases h
    · rw [ha] at h
      exact ih (hf s a s1 hP ha) h

/-- C4 counterexample: the claim says a template whose two segments'
overlapped feature-id sets are not the same singleton set — including
one singleton and one empty set — is rejected with `MULTI_NAME`. Here
segment `segExonA` overlaps exactly `{g}` while segment `segIntron`
overlaps no feature at all, yet the template is accepted (`g`, 40 bases,
no readthrough), not rejected. -/
theorem c4_one_empty_not_multiname :
    namesBaseSeg ffGap segExonA = ["g"] ∧
    namesBaseSeg ffGap segIntron = [] ∧
    classifyPair ffGap 10 (some segExonA, some segIntron) =
      .ok (.accept "g" 40 0) :=
  ⟨rfl, rfl, rfl⟩

/-- C4 amended: a template reaching step 3 is rejected with `MULTI_NAME`
exactly when some match operation's span carries more than one feature
name at one of its steps, or the union of the two segments' overlapped
feature-name sets holds more than one name; a segment overlapping no
feature does not trigger `MULTI_NAME` when the other overlaps exactly
one. -/
theorem c4_multiname_union
    (ff : List Feature) (fAnchor : Nat) (s1 s2 : Segment)
    (hchk : (segFailsChecks s1 || segFailsChecks s2) = false) :
    (classifyPair ff fAnchor (some s1, some s2) = .ok (.reject .MULTI_NAME) ↔
      ((segMultiName ff s1 || segMultiName ff s2) = true ∨
        1 < (namesBasePair ff s1 s2).length)) := by
  by_cases hc : (segMultiName ff s1 || segMultiName ff s2) = true ∨
      1 < (namesBasePair ff s1 s2).length
  · have hcond : ((segMultiName ff s1 || segMultiName ff s2) ||
        decide (1 < (namesBasePair ff s1 s2).length)) = true := by
      rcases hc with h | h <;> simp [h]
    simp [classifyPair, hchk, hcond, hc]
    rcases hc with h | h
    · exact Or.inl (by simpa using h)
    · exact Or.inr h
  · push_neg at hc
    obtain ⟨hm0, hl⟩ := hc
    have hm : (segMultiName ff s1 || segMultiName ff s2) = false :=
      Bool.eq_false_iff.mpr hm0
    simp only [classifyPair]
    simp [hchk, hm, hl]
    split
    · exact iff_of_false (by simp) (by omega)
    · split_ifs with h1
      · exact iff_of_false (by simp) (by omega)
      · split
        · exact iff_of_false (by simp) (by omega)
        · split_ifs <;> exact iff_of_false (by simp) (by omega)

/-- C4 witness: with segments overlapping `g` and `h` respectively the
union has two names and the amended criterion rejects with
`MULTI_NAME`. -/
theorem c4_multiname_union_witness :
    classifyPair ffGH 10 (some segIn, some segH) = .ok (.reject .MULTI_NAME) :=
  (c4_multiname_union ffGH 10 segIn segH rfl).mpr (by decide)

/-- C7 counterexample: the claim says a template overlapping only a
feature with no bounding interval is still classified to a rejection
outcome rather than causing a failure. Feature `u` has only an
unstranded exon, so it is in the exon index but `ivBounds` has no entry
for it; a template overlapping only `u` with a 50-base anchor reaches
the bounding-interval lookup and the classification fails with the
dictionary `KeyError` instead of any rejection outcome. -/
theorem c7_unstranded_lookup_failure :
    namesBasePair ffU segIn segIn = ["u"] ∧
    buildIvBounds ffU "u" = none ∧
    classifyPair ffU 10 (some segIn, some segIn) = .error "KeyError: u" :=
  ⟨rfl, rfl, rfl⟩

/-- C7 amended: the bounding-interval lookup is safe only under the
proviso that every feature name of the exon index owns a bounding
interval; under that proviso every template is classified to a
data-level outcome (no lookup failure). Without it the lookup can fail,
as the counterexample shows. -/
theorem c7_lookup_safe_when_bounded
    (ff : List Feature) (fAnchor : Nat) (pair : Option Segment × Option Segment)
    (hb : ∀ n ∈ allExonNames ff, (buildIvBounds ff n).isSome = true) :
    ∃ o, classifyPair ff fAnchor pair = .ok o := by
  obtain ⟨p1, p2⟩ := pair
  rcases hres : classifyPair ff fAnchor (p1, p2) with e | o
  · exfalso
    cases p1 with
    | none => simp [classifyPair] at hres
    | some s1 =>
      cases p2 with
      | none => simp [classifyPair] at hres
      | some s2 =>
        simp only [classifyPair] at hres
        split at hres
        · cases hres
        · split at hres
          · cases hres
          · split at hres
            · cases hres
            · rename_i nameBase rest heq
              split at hres
              · cases hres
              · split at hres
                · rename_i hnone
                  have hmem : nameBase ∈ namesBasePair ff s1 s2 := by
                    rw [heq]; exact List.mem_cons_self _ _
                  have := hb nameBase (mem_allExonNames_of_mem_namesBasePair hmem)
                  rw [hnone] at this
                  simp at this
                · split at hres
                  · cases hres
                  · split at hres
                    · cases hres
                    · cases hres
  · exact ⟨o, rfl⟩

/-- C7 amended witness: over `ffG` (every indexed name stranded, hence
bounded) a concrete template classifies to a data-level outcome. -/
theorem c7_lookup_safe_when_bounded_witness :
    (classifyPair ffG 10 (some segIn, some segIn)).isOk = true := by
  obtain ⟨o, ho⟩ :=
    c7_lookup_safe_when_bounded ffG 10 (some segIn, some segIn) (by decide)
  rw [ho]
  rfl

/-- Reduction of `processPair` on a classification error. -/
theorem processPair_error_eq {ff : List Feature} {fAnchor : Nat} {wh wf : Bool}
    {st : CountState} {pair : Option Segment × Option Segment} {e : String}
    (hcls : classifyPair ff fAnchor pair = .error e) :
    processPair ff fAnchor wh wf st pair = .error e := by
  unfold processPair
  rw [hcls]

/-- Reduction of `processPair` on a rejection. -/
theorem processPair_reject_eq {ff : List Feature} {fAnchor : Nat} {wh wf : Bool}
    {st : CountState} {pair : Option Segment × Option Segment} {code : ErrCode}
    (hcls : classifyPair ff fAnchor pair = .ok (.reject code)) :
    processPair ff fAnchor wh wf st pair =
      match writeBAMwithOpts wf [pair.1, pair.2] (failOpts code) with
      | .error e => .error e
      | .ok _ => .ok (rejectState code st) := by
  unfold processPair
  rw [hcls]

/-- Reduction of `processPair` on an accept. -/
theorem processPair_accept_eq {ff : List Feature} {fAnchor : Nat} {wh wf : Bool}
    {st : CountState} {pair : Option Segment × Option Segment}
    {n : String} {lb lrt : Nat}
    (hcls : classifyPair ff fAnchor pair = .ok (.accept n lb lrt)) :
    processPair ff fAnchor wh wf st pair =
      match writeBAMwithOpts wh [pair.1, pair.2] (acceptOpts n lb lrt) with
      | .error e => .error e
      | .ok _ => .ok (acceptState n lrt st) := by
  unfold processPair
  rw [hcls]

/-- Pointwise right-hand consequence of a `Forall₂` relation. -/
theorem forall2_right_mem {α β : Type} {R : α → β → Prop} {P : β → Prop}
    (hRP : ∀ a b, R a b → P b) :
    ∀ {l : List α} {res : List β}, List.Forall₂ R l res → ∀ b ∈ res, P b := by
  intro l res h
  induction h with
  | nil => simp
  | cons ha _ ih =>
    intro b hb
    rcases List.mem_cons.mp hb with rfl | hb
    · exact hRP _ _ ha
    · exact ih b hb

/-- Summing a constant weight column. -/
theorem sum_map_snd_const {β : Type} {c : ℚ} :
    ∀ {res : List (β × ℚ)}, (∀ pr ∈ res, pr.2 = c) →
      (res.map Prod.snd).sum = res.length * c := by
  intro res
  induction res with
  | nil => intro; simp
  | cons a l ih =>
    intro h
    rw [List.forall_mem_cons] at h
    simp [ih h.2, h.1]
    ring

/-- C5 (spec-modelled): for a template with more than one placement the
configured multimapping mode governs the outcome: `count_none` rejects
every placement with `MULTI_MAP` at weight 0; `count_all` classifies
every placement independently at weight 1 (weights summing to the
placement count); `count_fractional` classifies every placement
independently at weight `1/n` (weights summing to 1); any unknown mode
is a fatal configuration error, not a per-template rejection. -/
theorem c5_multimapping_modes
    (ff : List Feature) (fAnchor : Nat)
    (bundle : List (Option Segment × Option Segment))
    (hmm : 1 < bundle.length) :
    (classifyBundleWithMode ff fAnchor "count_none" bundle =
      .ok (bundle.map fun _ => (Outcome.reject .MULTI_MAP, (0 : ℚ)))) ∧
    (∀ res, classifyBundleWithMode ff fAnchor "count_all" bundle = .ok res →
      List.Forall₂
        (fun pair pr => classifyPair ff fAnchor pair = .ok pr.1 ∧ pr.2 = (1 : ℚ))
        bundle res ∧
      (res.map Prod.snd).sum = (bundle.length : ℚ)) ∧
    (∀ res, classifyBundleWithMode ff fAnchor "count_fractional" bundle = .ok res →
      List.Forall₂
        (fun pair pr => classifyPair ff fAnchor pair = .ok pr.1 ∧
          pr.2 = (1 : ℚ) / (bundle.length : ℚ))
        bundle res ∧
      (res.map Prod.snd).sum = 1) ∧
    (∀ mode, mode ∉ COUNTMODES →
      classifyBundleWithMode ff fAnchor mode bundle =
        .error ("Unknown multimapping mode: " ++ mode)) := by
  refine ⟨?_, ?_, ?_, ?_⟩
  · simp [classifyBundleWithMode, hmm]
  · intro res h
    have hmap : mapME (fun pair =>
        match classifyPair ff fAnchor pair with
        | .error e => .error e
        | .ok o => .ok (o, (1 : ℚ))) bundle = .ok res := by
      simpa [classifyBundleWithMode, hmm] using h
    have h2 := mapME_ok_forall2 hmap
    have h3 : List.Forall₂
        (fun pair pr => classifyPair ff fAnchor pair = .ok pr.1 ∧ pr.2 = (1 : ℚ))
        bundle res := by
      refine h2.imp ?_
      intro a b hab
      rcases hc : classifyPair ff fAnchor a with e | o
      · rw [hc] at hab; cases hab
      · rw [hc] at hab; cases hab; exact ⟨rfl, rfl⟩
    refine ⟨h3, ?_⟩
    have hconst : ∀ pr ∈ res, pr.2 = (1 : ℚ) :=
      forall2_right_mem (fun a b hab => hab.2) h3
    rw [sum_map_snd_const hconst, ← h3.length_eq]
    simp
  · intro res h
    have hmap : mapME (fun pair =>
        match classifyPair ff fAnchor pair with
        | .error e => .error e
        | .ok o => .ok (o, (1 : ℚ) / (bundle.length : ℚ))) bundle = .ok res := by
      simpa [classifyBundleWithMode, hmm] using h
    have h2 := mapME_ok_forall2 hmap
    have h3 : List.Forall₂
        (fun pair pr => classifyPair ff fAnchor pair = .ok pr.1 ∧
          pr.2 = (1 : ℚ) / (bundle.length : ℚ))
        bundle res := by
      refine h2.imp ?_
      intro a b hab
      rcases hc : classifyPair ff fAnchor a with e | o
      · rw [hc] at hab; cases hab
      · rw [hc] at hab; cases hab; exact ⟨rfl, rfl⟩
    refine ⟨h3, ?_⟩
    have hconst : ∀ pr ∈ res, pr.2 = (1 : ℚ) / (bundle.length : ℚ) :=
      forall2_right_mem (fun a b hab => hab.2) h3
    have hlen : (bundle.length : ℚ) ≠ 0 := by
      have : 0 < bundle.length := lt_trans Nat.zero_lt_one hmm
      exact_mod_cast Nat.pos_iff_ne_zero.mp this
    rw [sum_map_snd_const hconst, ← h3.length_eq]
    field_simp
  · intro mode hmode
    simp only [COUNTMODES, List.mem_cons, List.mem_singleton] at hmode
    push_neg at hmode
    obtain ⟨ha, hn, hf⟩ := hmode
    simp [classifyBundleWithMode, hmm, ha, hn, hf]

/-- C5 witness: a template with three equal placements under
`count_none` rejects each placement with `MULTI_MAP` at weight 0. -/
theorem c5_multimapping_modes_witness :
    classifyBundleWithMode ffG 10 "count_none"
      [(some segIn, some segIn), (some segIn, some segIn), (some segIn, some segIn)] =
      .ok [(Outcome.reject .MULTI_MAP, 0), (Outcome.reject .MULTI_MAP, 0),
        (Outcome.reject .MULTI_MAP, 0)] := by
  have h := (c5_multimapping_modes ffG 10
    [(some segIn, some segIn), (some segIn, some segIn), (some segIn, some segIn)]
    (by decide)).1
  simpa using h

/-- A successful `processPair` adds exactly 1 to the sum of the
per-pair outcome counters and leaves `totPairs` unchanged. -/
theorem processPair_statSum {ff : List Feature} {fAnchor : Nat} {wh wf : Bool}
    {st : CountState} {pair : Option Segment × Option Segment} {st' : CountState}
    (h : processPair ff fAnchor wh wf st pair = .ok st') :
    statSum st'.stats = statSum st.stats + 1 ∧
      st'.stats.totPairs = st.stats.totPairs := by
  rcases hcls : classifyPair ff fAnchor pair with e | o
  · rw [processPair_error_eq hcls] at h; cases h
  · rcases o with code | ⟨n, lb, lrt⟩
    · rw [processPair_reject_eq hcls] at h
      rcases hw : writeBAMwithOpts wf [pair.1, pair.2] (failOpts code) with e | ls
      · rw [hw] at h; cases h
      · rw [hw] at h
        cases h
        constructor
        · cases code <;> simp [rejectState, bumpStat, statSum] <;> omega
        · cases code <;> simp [rejectState, bumpStat]
    · rw [processPair_accept_eq hcls] at h
      rcases hw : writeBAMwithOpts wh [pair.1, pair.2] (acceptOpts n lb lrt) with e | ls
      · rw [hw] at h; cases h
      · rw [hw] at h
        cases h
        constructor
        · simp [acceptState, statSum]
          try omega
        · simp [acceptState]

/-- A successful nonempty `processBundle` preserves the conservation
invariant `totPairs = statSum`. -/
theorem processBundle_conservation {ff : List Feature} {fAnchor : Nat}
    {wh wf : Bool} {st : CountState}
    {bundle : List (Option Segment × Option Segment)} {st' : CountState}
    (hne : bundle ≠ [])
    (hinv : st.stats.totPairs = statSum st.stats)
    (h : processBundle ff fAnchor wh wf st bundle = .ok st') :
    st'.stats.totPairs = statSum st'.stats := by
  unfold processBundle at h
  by_cases hl : 1 < bundle.length
  · rw [if_pos hl] at h
    rcases hw : mapME (fun pair =>
        writeBAMwithOpts wf [pair.1, pair.2] (failOpts ErrCode.MULTI_MAP)) bundle
      with e | ls
    · rw [hw] at h; cases h
    · rw [hw] at h
      cases h
      simp [statSum] at hinv ⊢
      omega
  · rw [if_neg hl] at h
    obtain ⟨p, rfl⟩ : ∃ p, bundle = [p] := by
      cases bundle with
      | nil => exact absurd rfl hne
      | cons a l =>
        cases l with
        | nil => exact ⟨a, rfl⟩
        | cons b m => exact absurd (by simp) hl
    unfold foldME at h
    rcases hp : processPair ff fAnchor wh wf
        { st with stats := { st.stats with totPairs := st.stats.totPairs + 1 } } p
      with e | stp
    · rw [hp] at h; cases h
    · rw [hp] at h
      unfold foldME at h
      cases h
      obtain ⟨hs, ht⟩ := processPair_statSum hp
      have hs' : statSum st'.stats = statSum st.stats + 1 := by
        simpa [statSum] using hs
      have ht' : st'.stats.totPairs = st.stats.totPairs + 1 := by
        simpa using ht
      rw [ht', hs', hinv]

/-- C8: after processing any batch of nonempty bundles, the
total-templates counter equals the sum of the eight rejection counters
plus the base-hit total. -/
theorem c8_conservation
    (ff : List Feature) (fAnchor : Nat) (wHits wFails : Bool)
    (bundles : List (List (Option Segment × Option Segment))) (st : CountState)
    (hne : ∀ b ∈ bundles, b ≠ [])
    (hok : processBundles ff fAnchor wHits wFails bundles = .ok st) :
    st.stats.totPairs = statSum st.stats := by
  have H : ∀ (bs : List (List (Option Segment × Option Segment)))
      (st0 stf : CountState), (∀ b ∈ bs, b ≠ []) →
      st0.stats.totPairs = statSum st0.stats →
      foldME (processBundle ff fAnchor wHits wFails) st0 bs = .ok stf →
      stf.stats.totPairs = statSum stf.stats := by
    intro bs
    induction bs with
    | nil =>
      intro st0 stf _ hinv h
      unfold foldME at h
      cases h
      exact hinv
    | cons b rest ih =>
      intro st0 stf hbne hinv h
      unfold foldME at h
      rcases hb : processBundle ff fAnchor wHits wFails st0 b with e | st1
      · rw [hb] at h; cases h
      · rw [hb] at h
        exact ih st1 stf (fun x hx => hbne x (List.mem_cons_of_mem _ hx))
          (processBundle_conservation (hbne b (List.mem_cons_self _ _)) hinv hb) h
  exact H bundles CountState.init st hne rfl hok

/-- C8 witness: the demonstration batch (one accept, one orphan, one
multimapper) satisfies the conservation equation with three templates. -/
theorem c8_conservation_witness :
    demoFinal.stats.totPairs = statSum demoFinal.stats ∧
      demoFinal.stats.totPairs = 3 :=
  ⟨c8_conservation ffG 10 false false demoBundles demoFinal (by decide) rfl, rfl⟩

/-- A successful `processPair` preserves the tier invariant. -/
theorem processPair_tierInv {ff : List Feature} {fAnchor : Nat} {wh wf : Bool}
    {st : CountState} {pair : Option Segment × Option Segment} {st' : CountState}
    (hinv : tierInv st) (h : processPair ff fAnchor wh wf st pair = .ok st') :
    tierInv st' := by
  rcases hcls : classifyPair ff fAnchor pair with e | o
  · rw [processPair_error_eq hcls] at h; cases h
  · rcases o with code | ⟨n, lb, lrt⟩
    · rw [processPair_reject_eq hcls] at h
      rcases hw : writeBAMwithOpts wf [pair.1, pair.2] (failOpts code) with e | ls
      · rw [hw] at h; cases h
      · rw [hw] at h
        cases h
        exact hinv
    · rw [processPair_accept_eq hcls] at h
      rcases hw : writeBAMwithOpts wh [pair.1, pair.2] (acceptOpts n lb lrt) with e | ls
      · rw [hw] at h; cases h
      · rw [hw] at h
        cases h
        obtain ⟨h1, h2⟩ := hinv
        constructor
        · intro f
          have hbf := h1 f
          show (if 0 < lrt ∧ f = n then st.cntRT f + 1 else st.cntRT f) ≤
            (if f = n then st.cntBase f + 1 else st.cntBase f)
          split_ifs with ha hb
          · omega
          · exact absurd ha.2 hb
          · omega
          · omega
        · intro f hf
          have hf' : 0 < (if f = n then st.cntBase f + 1 else st.cntBase f) := hf
          show f ∈ (if st.baseKeys.contains n then st.baseKeys
            else st.baseKeys ++ [n])
          by_cases hfn : f = n
          · subst hfn
            split_ifs with hcont
            · simpa using hcont
            · exact List.mem_append_right _ (by simp)
          · rw [if_neg hfn] at hf'
            have hmem := h2 f hf'
            split_ifs with hcont
            · exact hmem
            · exact List.mem_append_left _ hmem

/-- A successful `processBundle` preserves the tier invariant. -/
theorem processBundle_tierInv {ff : List Feature} {fAnchor : Nat} {wh wf : Bool}
    {st : CountState} {bundle : List (Option Segment × Option Segment)}
    {st' : CountState}
    (hinv : tierInv st) (h : processBundle ff fAnchor wh wf st bundle = .ok st') :
    tierInv st' := by
  unfold processBundle at h
  by_cases hl : 1 < bundle.length
  · rw [if_pos hl] at h
    rcases hw : mapME (fun pair =>
        writeBAMwithOpts wf [pair.1, pair.2] (failOpts ErrCode.MULTI_MAP)) bundle
      with e | ls
    · rw [hw] at h; cases h
    · rw [hw] at h
      cases h
      exact hinv
  · rw [if_neg hl] at h
    have hstart : tierInv { st with stats :=
        { st.stats with totPairs := st.stats.totPairs + 1 } } := hinv
    exact foldME_preserve tierInv
      (fun s a s' hP hstep => processPair_tierInv hP hstep) hstart h

/-- C9: tier containment — the tier invariant (readthrough count at most
base count, base keys tracked) is preserved by every successful
processing step, so it holds at every point; after any successful batch,
every feature's readthrough count is at most its base count, every
feature with a positive readthrough count has its row in the final
table, and every final-table row carries the (zero-defaulted)
readthrough count of its feature. -/
theorem c9_tier_containment :
    (∀ (ff : List Feature) (fAnchor : Nat) (wh wf : Bool) (st : CountState)
      (pair : Option Segment × Option Segment) (st' : CountState),
      tierInv st → processPair ff fAnchor wh wf st pair = .ok st' → tierInv st') ∧
    (∀ (ff : List Feature) (fAnchor : Nat) (wh wf : Bool)
      (bundles : List (List (Option Segment × Option Segment))) (st : CountState),
      processBundles ff fAnchor wh wf bundles = .ok st →
      (∀ f, st.cntRT f ≤ st.cntBase f) ∧
      (∀ f, 0 < st.cntRT f → (f, st.cntBase f, st.cntRT f) ∈ finalTable st) ∧
      (∀ row ∈ finalTable st, row.2.2 = st.cntRT row.1)) := by
  constructor
  · exact fun ff fA wh wf st pair st' hinv h => processPair_tierInv hinv h
  · intro ff fA wh wf bundles st hok
    have hinit : tierInv CountState.init :=
      ⟨fun f => le_refl 0, fun f hf => absurd hf (by simp [CountState.init])⟩
    have hinv : tierInv st :=
      foldME_preserve tierInv
        (fun s b s' hP hstep => processBundle_tierInv hP hstep) hinit hok
    refine ⟨hinv.1, ?_, ?_⟩
    · intro f hf
      have hbase : 0 < st.cntBase f := lt_of_lt_of_le hf (hinv.1 f)
      exact List.mem_map.mpr ⟨f, hinv.2 f hbase, rfl⟩
    · intro row hrow
      obtain ⟨k, hk, rfl⟩ := List.mem_map.mp hrow
      rfl

/-- C9 witness: after a batch with one readthrough accept, feature `g`
satisfies containment and owns its final-table row. -/
theorem c9_tier_containment_witness :
    demoRTFinal.cntRT "g" ≤ demoRTFinal.cntBase "g" ∧
      ("g", demoRTFinal.cntBase "g", demoRTFinal.cntRT "g") ∈
        finalTable demoRTFinal := by
  have h := c9_tier_containment.2 ffG 10 false false
    [[(some segTail5, some segIn)]] demoRTFinal rfl
  exact ⟨h.1 "g", h.2.1 "g" (by decide)⟩

/-- A successful `processPair` preserves the tail-list invariant. -/
theorem processPair_tailsInv {ff : List Feature} {fAnchor : Nat} {wh wf : Bool}
    {st : CountState} {pair : Option Segment × Option Segment} {st' : CountState}
    (hinv : tailsInv st) (h : processPair ff fAnchor wh wf st pair = .ok st') :
    tailsInv st' := by
  rcases hcls : classifyPair ff fAnchor pair with e | o
  · rw [processPair_error_eq hcls] at h; cases h
  · rcases o with code | ⟨n, lb, lrt⟩
    · rw [processPair_reject_eq hcls] at h
      rcases hw : writeBAMwithOpts wf [pair.1, pair.2] (failOpts code) with e | ls
      · rw [hw] at h; cases h
      · rw [hw] at h
        cases h
        exact hinv
    · rw [processPair_accept_eq hcls] at h
      rcases hw : writeBAMwithOpts wh [pair.1, pair.2] (acceptOpts n lb lrt) with e | ls
      · rw [hw] at h; cases h
      · rw [hw] at h
        cases h
        intro f
        obtain ⟨hlen, hpos⟩ := hinv f
        constructor
        · show (if 0 < lrt ∧ f = n then st.dictTails f ++ [lrt]
              else st.dictTails f).length =
            (if 0 < lrt ∧ f = n then st.cntRT f + 1 else st.cntRT f)
          split_ifs with hc
          · simp [hlen]
          · exact hlen
        · show ∀ x ∈ (if 0 < lrt ∧ f = n then st.dictTails f ++ [lrt]
              else st.dictTails f), 0 < x
          split_ifs with hc
          · intro x hx
            rcases List.mem_append.mp hx with hx | hx
            · exact hpos x hx
            · rw [List.mem_singleton.mp hx]
              exact hc.1
          · exact hpos

/-- A successful `processBundle` preserves the tail-list invariant. -/
theorem processBundle_tailsInv {ff : List Feature} {fAnchor : Nat} {wh wf : Bool}
    {st : CountState} {bundle : List (Option Segment × Option Segment)}
    {st' : CountState}
    (hinv : tailsInv st) (h : processBundle ff fAnchor wh wf st bundle = .ok st') :
    tailsInv st' := by
  unfold processBundle at h
  by_cases hl : 1 < bundle.length
  · rw [if_pos hl] at h
    rcases hw : mapME (fun pair =>
        writeBAMwithOpts wf [pair.1, pair.2] (failOpts ErrCode.MULTI_MAP)) bundle
      with e | ls
    · rw [hw] at h; cases h
    · rw [hw] at h
      cases h
      exact hinv
  · rw [if_neg hl] at h
    have hstart : tailsInv { st with stats :=
        { st.stats with totPairs := st.stats.totPairs + 1 } } := hinv
    exact foldME_preserve tailsInv
      (fun s a s' hP hstep => processPair_tailsInv hP hstep) hstart h

/-- C10: after any successful batch, each feature's tail-length list has
exactly `cntRT` entries (one appended per `READTHROUGH` accept) and
every entry is strictly positive. -/
theorem c10_tails_match_counts
    (ff : List Feature) (fAnchor : Nat) (wh wf : Bool)
    (bundles : List (List (Option Segment × Option Segment))) (st : CountState)
    (hok : processBundles ff fAnchor wh wf bundles = .ok st) :
    tailsInv st := by
  have hinit : tailsInv CountState.init := fun f => ⟨rfl, by simp [CountState.init]⟩
  exact foldME_preserve tailsInv
    (fun s b s' hP hstep => processBundle_tailsInv hP hstep) hinit hok

/-- C10 witness: after one readthrough accept with tail 5, feature `g`'s
list is `[5]` and matches its readthrough count. -/
theorem c10_tails_match_counts_witness :
    (demoRTFinal.dictTails "g").length = demoRTFinal.cntRT "g" ∧
      demoRTFinal.dictTails "g" = [5] :=
  ⟨(c10_tails_match_counts ffG 10 false false
      [[(some segTail5, some segIn)]] demoRTFinal rfl "g").1, rfl⟩

end RTC
